import Mathlib

/-!
Formal model of the LINE stock-bot core (`src/app.py`): the identifier
validator, the price/name retrieval layer with its fallback chain and name
cache, the history fetcher, the command parser, the alert-set command, the
reply composer and the alert monitor sweep.

Modelling conventions:
* Python strings are `List Char`; the digit classes of `str.isdigit()` and
  the regex class `\d` are modelled over ASCII decimal digits.
* A thrown-and-caught Python exception is `Except.error ()`; external data
  sources (yfinance) are explicit oracle arguments so that each theorem
  quantifies over every possible upstream behaviour.
* A pandas frame is its Close column: a `List (Option ℚ)` (or, with dates,
  `List (ℕ × Option ℚ)`), where `none` is a NaN close and the empty list is
  an empty (or `None`) frame.
-/

namespace StockBot

/-- Python `str.isdigit()`: true iff the string is non-empty and every
character is a digit (modelled over ASCII decimal digits). -/
def pyIsDigit (s : List Char) : Bool :=
  !s.isEmpty && s.all Char.isDigit

/-- `is_valid_stock_id` from app.py: all digits and length 4 or 5. -/
def is_valid_stock_id (s : List Char) : Bool :=
  pyIsDigit s && (s.length == 4 || s.length == 5)

/-- One invocation of the external market-data world as seen by
`safe_get_last_price`: the guarded fast-quote attempt and the two history
downloads.  `Except.error ()` models a thrown exception; a history download
yields the Close column, with the empty list standing for an empty or
`None` frame. -/
structure Provider where
  fastQuote : Except Unit (Option ℚ)
  download1d1m : Except Unit (List (Option ℚ))
  download5d1d : Except Unit (List (Option ℚ))

/-- Close extraction `df["Close"].dropna().iloc[-1]` as it behaves under the
surrounding try/except: an empty series raises IndexError, which the handler
turns into `None`, so the model returns `none` there. -/
def historyLastClose (df : List (Option ℚ)) : Option ℚ :=
  (df.filterMap id).getLast?

/-- `safe_get_last_price` from app.py.  The fast-quote attempt has its own
try/except (failure or exception falls through); the two history downloads
share a single try/except, so an exception in the first history download
returns `none` without consulting the second. -/
def safe_get_last_price (p : Provider) : Option ℚ :=
  match p.fastQuote with
  | Except.ok (some v) => some v
  | _ =>
    match p.download1d1m with
    | Except.error _ => none
    | Except.ok df1 =>
      if df1.isEmpty then
        match p.download5d1d with
        | Except.error _ => none
        | Except.ok df5 => if df5.isEmpty then none else historyLastClose df5
      else historyLastClose df1

/-- The fast-quote tier yielded no value: the guarded lookup found nothing
usable, or the attempt raised.  Both fall through to the history block. -/
def fastMiss (p : Provider) : Prop :=
  p.fastQuote = Except.ok none ∨ p.fastQuote = Except.error ()

/-- One upstream `tk.info` response: the optional shortName and longName
entries.  A `None` or empty info dict is the response with both fields
`none`. -/
structure Info where
  shortName : Option (List Char)
  longName : Option (List Char)

/-- Python truthiness of `info.get(key)`: an absent key and an empty string
are both falsy. -/
def pyTruthy (s : Option (List Char)) : Bool :=
  match s with
  | some t => !t.isEmpty
  | none => false

/-- The name chosen by `info.get("shortName") or info.get("longName") or
stock_id`. -/
def pickName (i : Info) (stock_id : List Char) : List Char :=
  if pyTruthy i.shortName then i.shortName.getD []
  else if pyTruthy i.longName then i.longName.getD []
  else stock_id

/-- The process-wide name cache `name_cache`. -/
def Cache : Type := List Char → Option (List Char)

/-- `safe_get_stock_name` from app.py, returning the display name, the
cache after the call, and whether an upstream info call was issued.  On a
cache hit the upstream is not consulted; on a miss the info call either
raises (return the identifier, cache untouched) or yields a response whose
chosen name is cached and returned. -/
def safe_get_stock_name (upstream : Except Unit Info) (cache : Cache)
    (stock_id : List Char) : List Char × Cache × Bool :=
  match cache stock_id with
  | some name => (name, cache, false)
  | none =>
    match upstream with
    | Except.error _ => (stock_id, cache, true)
    | Except.ok i =>
      let name := pickName i stock_id
      (name, fun x => if x = stock_id then some name else cache x, true)

/-- C1: for every string token t, `is_valid_stock_id t` is true iff t is
non-empty, every character of t is a decimal digit, and the length of t is
4 or 5.  The predicate is a total Lean function of its argument alone,
which is the model of a pure predicate with no side effects and no failure
mode. -/
theorem C1_is_valid_characterization (s : List Char) :
    is_valid_stock_id s = true ↔
      s ≠ [] ∧ (∀ c ∈ s, c.isDigit = true) ∧ (s.length = 4 ∨ s.length = 5) := by
  simp [is_valid_stock_id, pyIsDigit, List.isEmpty_iff, List.all_eq_true, and_assoc]

/-- C1 witness: the characterization evaluated at the concrete token 2330. -/
theorem C1_is_valid_witness : is_valid_stock_id ("2330".toList) = true :=
  (C1_is_valid_characterization ("2330".toList)).mpr (by decide)

/-- C2 counterexample: fast quote misses, the 1-day/1-minute download
raises, and the 5-day/1-day tier has a close series whose latest close is
100 — yet `safe_get_last_price` returns `none`, because the two history
downloads share one try/except and the raised exception skips the 5-day
tier.  The claim requires the latest close (100) of the first tier with
data to be returned. -/
theorem C2_chain_counterexample :
    safe_get_last_price ⟨Except.ok none, Except.error (), Except.ok [some 100]⟩ = none ∧
    historyLastClose [some 100] = some 100 := by
  constructor <;> rfl

/-- C2 (amended): the fast-quote attempt is isolated — on its miss or
exception the chain falls through to the history block — and when the fast
quote has a value it is returned; the 1-day/1-minute tier, when it returns
a non-empty frame, determines the result as its latest non-null close; the
5-day/1-day tier is consulted exactly when the 1-day download returns
cleanly empty, and then determines the result likewise; but an exception in
the shared history block (in particular a raising 1-day download) returns
absent without consulting the 5-day tier. -/
theorem C2_fallback_amended (p : Provider) :
    (∀ v, p.fastQuote = Except.ok (some v) → safe_get_last_price p = some v) ∧
    (fastMiss p → ∀ df1, p.download1d1m = Except.ok df1 → df1 ≠ [] →
      safe_get_last_price p = historyLastClose df1) ∧
    (fastMiss p → p.download1d1m = Except.ok [] → ∀ df5,
      p.download5d1d = Except.ok df5 → safe_get_last_price p = historyLastClose df5) ∧
    (fastMiss p → p.download1d1m = Except.error () → safe_get_last_price p = none) := by
  obtain ⟨fq, d1, d5⟩ := p
  refine ⟨?_, ?_, ?_, ?_⟩
  · intro v h
    simp only at h
    subst h
    rfl
  · intro hm df1 h1 hne
    simp only at h1
    subst h1
    rcases hm with h | h <;> simp only at h <;> subst h <;>
      simp [safe_get_last_price, List.isEmpty_iff, hne]
  · intro hm h1 df5 h5
    simp only at h1 h5
    subst h1; subst h5
    rcases hm with h | h <;> simp only at h <;> subst h <;>
      cases df5 <;> simp [safe_get_last_price, historyLastClose]
  · intro hm h1
    simp only at h1
    subst h1
    rcases hm with h | h <;> simp only at h <;> subst h <;> rfl

/-- C2 witness: fast quote misses cleanly, the 1-day tier has closes
[NaN, 7], and the returned price is the latest non-null close 7. -/
theorem C2_fallback_witness :
    safe_get_last_price ⟨Except.ok none, Except.ok [none, some 7], Except.ok []⟩ = some 7 := by
  have h := (C2_fallback_amended ⟨Except.ok none, Except.ok [none, some 7], Except.ok []⟩).2.1
    (Or.inl rfl) [none, some 7] rfl (by simp)
  rw [h]; rfl

/-- C3 counterexample: with an empty name cache and an upstream that raises
on both calls, each of two successive get_display_name calls issues an
upstream call (the Bool in the result is the issued-an-upstream-call flag),
so two calls issue two upstream calls, not at most one: after a raising
first call nothing is cached. -/
theorem C3_cache_counterexample :
    (safe_get_stock_name (Except.error ()) (fun _ => none) ("2330".toList)).2.2 = true ∧
    (safe_get_stock_name (Except.error ())
      (safe_get_stock_name (Except.error ()) (fun _ => none) ("2330".toList)).2.1
      ("2330".toList)).2.2 = true := by
  constructor <;> rfl

/-- C3 (amended): on a cache miss, if the first call's upstream does not
raise, the second call returns the same (cached) value with no upstream
call issued, whatever the upstream would now do; an upstream exception
makes the call return the identifier itself and leaves the cache untouched
(so the next call queries upstream again); the operation is a total
function, never failing outright. -/
theorem C3_cache_amended (i : Info) (u2 : Except Unit Info) (c : Cache)
    (id : List Char) (hmiss : c id = none) :
    ((safe_get_stock_name u2
        (safe_get_stock_name (Except.ok i) c id).2.1 id).1
      = (safe_get_stock_name (Except.ok i) c id).1) ∧
    ((safe_get_stock_name u2
        (safe_get_stock_name (Except.ok i) c id).2.1 id).2.2 = false) ∧
    ((safe_get_stock_name (Except.error ()) c id).1 = id) ∧
    ((safe_get_stock_name (Except.error ()) c id).2.1 = c) := by
  simp [safe_get_stock_name, hmiss]

/-- C3 witness: a successful first resolution is served from the cache on
the second call even though the upstream now raises. -/
theorem C3_cache_witness :
    (safe_get_stock_name (Except.error ())
      (safe_get_stock_name (Except.ok ⟨some ("台積電".toList), none⟩)
        (fun _ => none) ("2330".toList)).2.1
      ("2330".toList)).1 = ("台積電".toList) := by
  have h := C3_cache_amended ⟨some ("台積電".toList), none⟩ (Except.error ())
    (fun _ => none) ("2330".toList) rfl
  rw [h.1]; rfl

/-- Python `str.split()` with no argument, accumulator form: split on runs
of whitespace, dropping empty pieces; `acc` holds the characters of the
token being built, reversed. -/
def pySplitAux : List Char → List Char → List (List Char)
  | [], acc => if acc.isEmpty then [] else [acc.reverse]
  | ch :: rest, acc =>
    if ch.isWhitespace then
      if acc.isEmpty then pySplitAux rest []
      else acc.reverse :: pySplitAux rest []
    else pySplitAux rest (ch :: acc)

/-- Python `str.split()` with no argument. -/
def pySplit (s : List Char) : List (List Char) := pySplitAux s []

/-- Python `str.strip()`. -/
def pyStrip (s : List Char) : List Char :=
  ((s.dropWhile Char.isWhitespace).reverse.dropWhile Char.isWhitespace).reverse

/-- Every token produced by the splitter is free of whitespace, provided the
accumulator is. -/
lemma pySplitAux_no_ws (s : List Char) :
    ∀ acc, (∀ c ∈ acc, c.isWhitespace = false) →
      ∀ t ∈ pySplitAux s acc, ∀ c ∈ t, c.isWhitespace = false := by
  induction s with
  | nil =>
    intro acc hacc t ht c hc
    simp only [pySplitAux] at ht
    by_cases h : acc.isEmpty
    · rw [if_pos h] at ht
      simp at ht
    · rw [if_neg h, List.mem_singleton] at ht
      subst ht
      exact hacc c (List.mem_reverse.mp hc)
  | cons ch rest ih =>
    intro acc hacc t ht c hc
    simp only [pySplitAux] at ht
    by_cases hw : ch.isWhitespace = true
    · rw [if_pos hw] at ht
      by_cases ha : acc.isEmpty
      · rw [if_pos ha] at ht
        exact ih [] (by simp) t ht c hc
      · rw [if_neg ha] at ht
        rcases List.mem_cons.mp ht with h1 | h1
        · subst h1
          exact hacc c (List.mem_reverse.mp hc)
        · exact ih [] (by simp) t h1 c hc
    · rw [if_neg hw] at ht
      refine ih (ch :: acc) ?_ t ht c hc
      intro d hd
      rcases List.mem_cons.mp hd with rfl | hd
      · simpa using hw
      · exact hacc d hd

/-- Every token of `pySplit` is free of whitespace. -/
lemma pySplit_no_ws (s : List Char) :
    ∀ t ∈ pySplit s, ∀ c ∈ t, c.isWhitespace = false :=
  pySplitAux_no_ws s [] (by simp)

/-- `dropWhile` is the identity when no element satisfies the predicate. -/
lemma dropWhile_of_forall_false (p : Char → Bool) (t : List Char)
    (h : ∀ c ∈ t, p c = false) : t.dropWhile p = t := by
  cases t with
  | nil => rfl
  | cons a t' => simp [List.dropWhile_cons, h a (List.mem_cons_self a t')]

/-- Stripping a whitespace-free string is the identity. -/
lemma pyStrip_of_no_ws (t : List Char) (h : ∀ c ∈ t, c.isWhitespace = false) :
    pyStrip t = t := by
  unfold pyStrip
  rw [dropWhile_of_forall_false _ _ h,
    dropWhile_of_forall_false _ _ (fun c hc => h c (List.mem_reverse.mp hc)),
    List.reverse_reverse]

/-- The multi-query keyword. -/
def kwQuery : List Char := "查".toList

/-- The month-window synonyms accepted after a single identifier. -/
def monthWords : List (List Char) :=
  ["30".toList, "30天".toList, "30日".toList, "月線".toList]

/-- The result dict of `parse_user_input`. -/
structure ParseResult where
  mode : String
  stock_ids : List (List Char)
  days : Int
deriving DecidableEq, Repr

/-- `parse_user_input` from app.py: tokenize the trimmed message; empty
input falls through with no identifiers; a first token equal to the
multi-query keyword selects multi mode with the remaining tokens filtered
through the validator; otherwise single mode on the first token, with the
30-day window iff the second token is a month synonym. -/
def parse_user_input (user_message : List Char) : ParseResult :=
  match pySplit (pyStrip user_message) with
  | [] => ⟨"single", [], 5⟩
  | p0 :: rest =>
    if p0 = kwQuery then
      ⟨"multi", (rest.map pyStrip).filter is_valid_stock_id, 5⟩
    else
      ⟨"single", [pyStrip p0],
        match rest with
        | [] => 5
        | k :: _ => if pyStrip k ∈ monthWords then 30 else 5⟩

/-- C5: whenever the first whitespace-delimited token is the multi-query
keyword, the parser returns multi mode, the identifier list is exactly the
remaining tokens that pass the validator in their original order (invalid
tokens silently dropped), and the window is fixed at 5 days. -/
theorem C5_parse_multi (msg : List Char) (rest : List (List Char))
    (h : pySplit (pyStrip msg) = kwQuery :: rest) :
    parse_user_input msg = ⟨"multi", rest.filter is_valid_stock_id, 5⟩ := by
  have hids : rest.map pyStrip = rest := by
    have hstrip : ∀ t ∈ rest, pyStrip t = t := by
      intro t ht
      refine pyStrip_of_no_ws t (fun c hc => ?_)
      exact pySplit_no_ws (pyStrip msg) t (h ▸ List.mem_cons_of_mem _ ht) c hc
    calc rest.map pyStrip = rest.map id := List.map_congr_left hstrip
    _ = rest := List.map_id rest
  simp only [parse_user_input, h, hids]
  simp

/-- C5 witness: the spec's own example, with the invalid token dropped. -/
theorem C5_parse_multi_witness :
    parse_user_input ("查 2330 abc 2317".toList)
      = ⟨"multi", ["2330".toList, "2317".toList], 5⟩ := by
  have h := C5_parse_multi ("查 2330 abc 2317".toList)
    ["2330".toList, "abc".toList, "2317".toList] (by decide)
  rw [h]
  decide

/-- Requested calendar window of `fetch_history_df`:
`max(days * 3, days + 10)`. -/
def req_days (days : Int) : Int := max (days * 3) (days + 10)

/-- The daily-history download oracle: given the requested period length in
days, either raise or yield rows of (date, optional Close). -/
def Download : Type := Int → Except Unit (List (ℕ × Option ℚ))

/-- Rows surviving `dropna(subset=["Close"])`. -/
def closesOf (df : List (ℕ × Option ℚ)) : List (ℕ × ℚ) :=
  df.filterMap (fun r => (r.2).map (fun c => (r.1, c)))

/-- `fetch_history_df` from app.py: non-positive windows are normalized to
5; request `max(days*3, days+10)` days of daily data; `None` on a raising
or empty download, drop null closes, `None` again if nothing survives, else
keep the trailing `days` rows. -/
def fetch_history_df (download : Download) (days : Int) :
    Option (List (ℕ × ℚ)) :=
  let d := if days ≤ 0 then 5 else days
  match download (req_days d) with
  | Except.error _ => none
  | Except.ok df =>
    if df.isEmpty then none
    else
      let filtered := closesOf df
      if filtered.isEmpty then none
      else some (filtered.drop (filtered.length - d.toNat))

/-- The dates of the rows surviving the null-close filter form a sublist of
the raw dates. -/
lemma closesOf_dates_sublist (df : List (ℕ × Option ℚ)) :
    ((closesOf df).map Prod.fst).Sublist (df.map Prod.fst) := by
  induction df with
  | nil => simp [closesOf]
  | cons r t ih =>
    obtain ⟨d, c⟩ := r
    cases c with
    | none => simpa [closesOf] using ih.cons d
    | some v => simpa [closesOf] using ih.cons₂ d

/-- C4 counterexample: at window 0 the claim prescribes a request of
`max(0*3, 0+10) = 10` calendar days and a trailing-0 (empty) result, but
the code first normalizes the window to 5, requests 15 days (the download
below raises at every other period), and returns one row — a result of
length 1 > 0. -/
theorem C4_history_counterexample :
    fetch_history_df
      (fun n => if n = 15 then Except.ok [((0 : ℕ), some (1 : ℚ))] else Except.error ()) 0
      = some [(0, 1)] := by
  rfl

/-- C4 (amended): for every positive window, the fetch consults the
download oracle only at `max(days*3, days+10)`; it is absent exactly when
the download raises or no row survives the null-close filter; and a present
result is a suffix of the filtered rows (hence only non-null closes), has
at most `days` entries, and preserves chronological order. -/
theorem C4_history_amended (download : Download) (days : Int) (hd : 1 ≤ days) :
    (∀ download2 : Download,
      download2 (req_days days) = download (req_days days) →
      fetch_history_df download2 days = fetch_history_df download days) ∧
    (fetch_history_df download days = none ↔
      download (req_days days) = Except.error () ∨
      (∃ df, download (req_days days) = Except.ok df ∧ closesOf df = [])) ∧
    (∀ hist, fetch_history_df download days = some hist →
      hist.length ≤ days.toNat ∧
      ∃ df, download (req_days days) = Except.ok df ∧
        hist <:+ closesOf df ∧
        ((df.map Prod.fst).Pairwise (· < ·) →
          (hist.map Prod.fst).Pairwise (· < ·))) := by
  have hdd : (if days ≤ 0 then (5 : Int) else days) = days := by
    rw [if_neg]
    omega
  refine ⟨?_, ?_, ?_⟩
  · intro download2 he
    simp only [fetch_history_df, hdd, he]
  · cases hdl : download (req_days days) with
    | error e =>
      cases e
      simp [fetch_history_df, hdd, hdl]
    | ok df =>
      by_cases h1 : df = []
      · subst h1
        simp [fetch_history_df, hdd, hdl, closesOf]
      · by_cases h2 : closesOf df = []
        · simp [fetch_history_df, hdd, hdl, List.isEmpty_iff, h1, h2]
        · simp [fetch_history_df, hdd, hdl, List.isEmpty_iff, h1, h2]
  · intro hist hh
    cases hdl : download (req_days days) with
    | error e =>
      simp [fetch_history_df, hdd, hdl] at hh
    | ok df =>
      by_cases h1 : df = []
      · subst h1
        simp [fetch_history_df, hdd, hdl] at hh
      · by_cases h2 : closesOf df = []
        · simp [fetch_history_df, hdd, hdl, List.isEmpty_iff, h1, h2] at hh
        · simp only [fetch_history_df, hdd, hdl, List.isEmpty_iff, h1, h2,
            if_false, if_neg, Option.some.injEq] at hh
          have hh' : (closesOf df).drop ((closesOf df).length - days.toNat) = hist := by
            simpa [List.isEmpty_iff, h1, h2] using hh
          subst hh'
          refine ⟨?_, df, rfl, ?_, ?_⟩
          · rw [List.length_drop]
            omega
          · exact List.drop_suffix _ _
          · intro hsorted
            have s1 : ((closesOf df).drop ((closesOf df).length - days.toNat)).Sublist
                (closesOf df) :=
              (List.drop_suffix _ _).sublist
            have s2 := (s1.map Prod.fst).trans (closesOf_dates_sublist df)
            exact List.Pairwise.sublist s2 hsorted

/-- C4 witness: window 2, a three-row download with one null close — the
result keeps the two non-null rows, within the window bound. -/
theorem C4_history_witness :
    fetch_history_df
      (fun _ => Except.ok [(1, some 10), (2, none), (3, some 12)]) 2
      = some [(1, 10), (3, 12)] ∧
    ([((1 : ℕ), (10 : ℚ)), (3, 12)]).length ≤ (2 : Int).toNat := by
  refine ⟨rfl, ?_⟩
  exact (((C4_history_amended (fun _ => Except.ok [(1, some 10), (2, none), (3, some 12)]) 2
    (by norm_num)).2.2) [(1, 10), (3, 12)] rfl).1
/-- Anchored (re.match, prefix-semantics) match of the alert-set pattern:
the two keyword characters, one-plus whitespace, a digit group, optional
whitespace, an angle operator, optional whitespace, a digit group with an
optional fractional part.  Trailing input is ignored, as with re.match.
For this pattern greedy scanning without backtracking is equivalent to the
regex engine, since no quantified class overlaps its successor.  Returns
(identifier group, operator, integer digits, fractional digits). -/
def matchAlertRegex (s : List Char) :
    Option (List Char × Char × List Char × List Char) :=
  match s with
  | '設' :: '定' :: r0 =>
    let ws1 := r0.takeWhile Char.isWhitespace
    let r1 := r0.dropWhile Char.isWhitespace
    if ws1.isEmpty then none
    else
      let d1 := r1.takeWhile Char.isDigit
      let r2 := r1.dropWhile Char.isDigit
      if d1.isEmpty then none
      else
        match r2.dropWhile Char.isWhitespace with
        | [] => none
        | op :: r4 =>
          if op = '<' || op = '>' then
            let r5 := r4.dropWhile Char.isWhitespace
            let d2 := r5.takeWhile Char.isDigit
            let r6 := r5.dropWhile Char.isDigit
            if d2.isEmpty then none
            else
              match r6 with
              | '.' :: r7 => some (d1, op, d2, r7.takeWhile Char.isDigit)
              | _ => some (d1, op, d2, [])
          else none
  | _ => none

/-- Decimal value of a digit string. -/
def digitsToNat (ds : List Char) : ℕ :=
  ds.foldl (fun a c => 10 * a + (c.toNat - ('0').toNat)) 0

/-- float(target_str) on a string matched by the numeric group of the
pattern: integer digits plus the fractional digits scaled down. -/
def parseTarget (ip fp : List Char) : ℚ :=
  (digitsToNat ip : ℚ) + (digitsToNat fp : ℚ) / (10 : ℚ) ^ fp.length

/-- One pending alert condition, as stored in a user's list. -/
structure AlertCond where
  stock_id : List Char
  operator : Char
  target : ℚ
deriving DecidableEq

/-- The process-wide alert store: user id to pending conditions, in
creation order. -/
def AlertStore : Type := String → List AlertCond

/-- The alert-set branch of handle_message, entered when the message starts
with the keyword: on a full pattern match whose (stripped) identifier group
is valid, append exactly one condition to the sender's list and acknowledge
(Bool true); on any deviation — failed match or invalid identifier, both
raised as ValueError and caught — leave the store unchanged and send the
fixed format-error reply (Bool false).  float() cannot fail on a string
matched by the numeric group. -/
def handle_alert_set (msg : List Char) (store : AlertStore) (uid : String) :
    AlertStore × Bool :=
  match matchAlertRegex msg with
  | none => (store, false)
  | some (d1, op, ip, fp) =>
    let sid := pyStrip d1
    if is_valid_stock_id sid then
      (fun u => if u = uid then store uid ++ [⟨sid, op, parseTarget ip fp⟩] else store u,
       true)
    else (store, false)

/-- C6: for a message in the alert-set branch, a full pattern match with a
valid identifier appends exactly one condition (that identifier, operator,
and parsed target) to the sender's list, leaving every other user's list
untouched, and acknowledges; a failed match, or a match with an invalid
identifier, leaves the whole store unchanged and produces the fixed
format-error reply. -/
theorem C6_alert_set (msg : List Char) (store : AlertStore) (uid : String) :
    (∀ d1 op ip fp, matchAlertRegex msg = some (d1, op, ip, fp) →
      is_valid_stock_id (pyStrip d1) = true →
      (handle_alert_set msg store uid).1 uid
          = store uid ++ [⟨pyStrip d1, op, parseTarget ip fp⟩] ∧
      (∀ u, u ≠ uid → (handle_alert_set msg store uid).1 u = store u) ∧
      (handle_alert_set msg store uid).2 = true) ∧
    (matchAlertRegex msg = none →
      (handle_alert_set msg store uid).1 = store ∧
      (handle_alert_set msg store uid).2 = false) ∧
    (∀ d1 op ip fp, matchAlertRegex msg = some (d1, op, ip, fp) →
      is_valid_stock_id (pyStrip d1) = false →
      (handle_alert_set msg store uid).1 = store ∧
      (handle_alert_set msg store uid).2 = false) := by
  refine ⟨?_, ?_, ?_⟩
  · intro d1 op ip fp hm hv
    refine ⟨?_, ?_, ?_⟩
    · simp [handle_alert_set, hm, hv]
    · intro u hu
      simp [handle_alert_set, hm, hv, hu]
    · simp [handle_alert_set, hm, hv]
  · intro hm
    simp [handle_alert_set, hm]
  · intro d1 op ip fp hm hv
    simp [handle_alert_set, hm, hv]

/-- C6 witness: the spec's own example appends the single condition
(2330, greater-than, 800) for the sender. -/
theorem C6_alert_set_witness :
    (handle_alert_set ("設定 2330 > 800".toList) (fun _ => []) "U").1 "U"
      = [⟨"2330".toList, '>', (800 : ℚ)⟩] := by
  have h := ((C6_alert_set ("設定 2330 > 800".toList) (fun _ => []) "U").1
    ("2330".toList) '>' ("800".toList) [] (by decide) (by decide)).1
  rw [h]
  have hsid : pyStrip ['2', '3', '3', '0'] = ['2', '3', '3', '0'] := by decide
  have htar : parseTarget ['8', '0', '0'] [] = 800 := by
    have hnat : digitsToNat ['8', '0', '0'] = 800 := by decide
    have hnil : digitsToNat ([] : List Char) = 0 := rfl
    rw [parseTarget, hnat, hnil]
    norm_num
  simp [hsid, htar]

/-- The trigger test of the monitor: with no price the condition is skipped
(treated as not triggered); with a price p, triggered iff the operator is
the greater-than sign and p exceeds the target, or the less-than sign and p
is below the target (both strict). -/
def trigB (price : Option ℚ) (c : AlertCond) : Bool :=
  match price with
  | none => false
  | some p =>
    (decide (c.operator = '>') && decide (c.target < p)) ||
    (decide (c.operator = '<') && decide (p < c.target))

/-- Python `list.remove`: delete the first structurally-equal occurrence. -/
def removeFirst (a : AlertCond) : List AlertCond → List AlertCond
  | [] => []
  | x :: xs => if x = a then xs else x :: removeFirst a xs

/-- The per-user loop body of run_alert_monitor_once: iterate over a frozen
copy (`todo`) of the user's list while removing each fired condition from
the live list (`cur`); returns the live list at the end of the sweep and
the conditions notified, in notification order. -/
def sweepAux (price : List Char → Option ℚ) :
    List AlertCond → List AlertCond → List AlertCond × List AlertCond
  | [], cur => (cur, [])
  | a :: todo, cur =>
    if trigB (price a.stock_id) a then
      let r := sweepAux price todo (removeFirst a cur)
      (r.1, a :: r.2)
    else sweepAux price todo cur

/-- One user's sweep: the copy iterated over and the live list start out as
the same list (`for alert in user_alerts[:]`). -/
def sweepUser (price : List Char → Option ℚ) (conds : List AlertCond) :
    List AlertCond × List AlertCond :=
  sweepAux price conds conds

/-- `run_alert_monitor_once` from app.py over the whole store (an
association list of user id and pending list, iterated over a snapshot of
the keys): each user's list is swept in place; the notifications carry the
owning user.  The notifier is the excluded transport collaborator and is
modelled as non-raising. -/
def run_alert_monitor_once (price : List Char → Option ℚ)
    (store : List (String × List AlertCond)) :
    List (String × List AlertCond) × List (String × AlertCond) :=
  (store.map (fun e => (e.1, (sweepUser price e.2).1)),
   (store.map (fun e => ((sweepUser price e.2).2).map (fun c => (e.1, c)))).flatten)

/-- The notified conditions of a sweep are exactly the triggered ones of
the frozen copy, in order. -/
lemma sweepAux_fired (price : List Char → Option ℚ)
    (todo cur : List AlertCond) :
    (sweepAux price todo cur).2
      = todo.filter (fun a => trigB (price a.stock_id) a) := by
  induction todo generalizing cur with
  | nil => rfl
  | cons a t ih =>
    by_cases h : trigB (price a.stock_id) a
    · simp [sweepAux, h, List.filter_cons, ih]
    · simp [sweepAux, h, List.filter_cons, ih]

/-- The live list left by a sweep is the fold of first-occurrence removals
of the fired conditions over the frozen copy. -/
lemma sweepAux_rem (price : List Char → Option ℚ)
    (todo cur : List AlertCond) :
    (sweepAux price todo cur).1
      = todo.foldl
          (fun acc a => if trigB (price a.stock_id) a then removeFirst a acc else acc)
          cur := by
  induction todo generalizing cur with
  | nil => rfl
  | cons a t ih =>
    by_cases h : trigB (price a.stock_id) a <;> simp [sweepAux, h, ih]

/-- A head that no processed-and-fired condition equals survives the
removal fold. -/
lemma foldl_remove_cons (price : List Char → Option ℚ)
    (todo : List AlertCond) (a : AlertCond) (cur : List AlertCond)
    (h : ∀ b ∈ todo, trigB (price b.stock_id) b = true → b ≠ a) :
    todo.foldl
        (fun acc b => if trigB (price b.stock_id) b then removeFirst b acc else acc)
        (a :: cur)
      = a :: todo.foldl
          (fun acc b => if trigB (price b.stock_id) b then removeFirst b acc else acc)
          cur := by
  induction todo generalizing cur with
  | nil => rfl
  | cons b t ih =>
    by_cases hb : trigB (price b.stock_id) b
    · have hba : b ≠ a := h b (List.mem_cons_self b t) hb
      have hrm : removeFirst b (a :: cur) = a :: removeFirst b cur := by
        simp [removeFirst, Ne.symm hba]
      simp only [List.foldl_cons, hb, if_true, hrm]
      exact ih _ (fun d hd hdt => h d (List.mem_cons_of_mem _ hd) hdt)
    · simp only [List.foldl_cons, hb, if_false]
      exact ih _ (fun d hd hdt => h d (List.mem_cons_of_mem _ hd) hdt)

/-- Sweeping a list against itself leaves exactly the non-triggered
conditions, multiplicity included. -/
lemma foldl_remove_self (price : List Char → Option ℚ) (l : List AlertCond) :
    l.foldl
        (fun acc b => if trigB (price b.stock_id) b then removeFirst b acc else acc)
        l
      = l.filter (fun a => !(trigB (price a.stock_id) a)) := by
  induction l with
  | nil => rfl
  | cons a t ih =>
    by_cases ha : trigB (price a.stock_id) a
    · have h1 : removeFirst a (a :: t) = t := by simp [removeFirst]
      simp [List.foldl_cons, ha, h1, ih, List.filter_cons]
    · have hne : ∀ b ∈ t, trigB (price b.stock_id) b = true → b ≠ a := by
        intro b hb hbt hba
        rw [hba] at hbt
        exact ha hbt
      have hcons := foldl_remove_cons price t a t hne
      simp [List.foldl_cons, ha, hcons, ih, List.filter_cons]

/-- The live list left by one user's sweep is the non-triggered filter of
the original list. -/
lemma sweepUser_rem (price : List Char → Option ℚ) (conds : List AlertCond) :
    (sweepUser price conds).1
      = conds.filter (fun a => !(trigB (price a.stock_id) a)) := by
  rw [sweepUser, sweepAux_rem]
  exact foldl_remove_self price conds

/-- C7: during a sweep a condition fires iff its operator is the
greater-than sign and the current price strictly exceeds the target, or the
less-than sign and the price is strictly below it (the notified list is
exactly the filter of the frozen copy under that test); every fired
occurrence is removed from the live list (what remains is exactly the
non-triggered filter); hence no condition instance fired by this sweep can
be notified again by any subsequent sweep, whatever prices that sweep
sees. -/
theorem C7_monitor_fire_once (price price2 : List Char → Option ℚ)
    (conds : List AlertCond) :
    (sweepUser price conds).2 = conds.filter (fun c =>
      match price c.stock_id with
      | none => false
      | some p =>
        (decide (c.operator = '>') && decide (c.target < p)) ||
        (decide (c.operator = '<') && decide (p < c.target))) ∧
    (sweepUser price conds).1
      = conds.filter (fun c => !(trigB (price c.stock_id) c)) ∧
    (∀ c ∈ (sweepUser price conds).2,
      c ∉ (sweepUser price2 ((sweepUser price conds).1)).2) := by
  refine ⟨?_, sweepUser_rem price conds, ?_⟩
  · exact sweepAux_fired price conds conds
  · intro c hc hc2
    rw [sweepUser, sweepAux_fired] at hc
    have htrig := (List.mem_filter.mp hc).2
    rw [sweepUser_rem] at hc2
    rw [sweepUser, sweepAux_fired] at hc2
    have hmem := (List.mem_filter.mp hc2).1
    have hkeep := (List.mem_filter.mp hmem).2
    rw [htrig] at hkeep
    simp at hkeep

/-- C7 witness: one user holds the condition (2330, greater-than, 100)
twice and (2330, less-than, 90) once; at price 120 both greater-than
instances fire, the less-than one stays, and a second sweep at the higher
price 130 notifies nothing for the fired instances. -/
theorem C7_monitor_fire_once_witness :
    (sweepUser (fun _ => some 120)
        [⟨"2330".toList, '>', 100⟩, ⟨"2330".toList, '>', 100⟩, ⟨"2330".toList, '<', 90⟩]).2
      = [⟨"2330".toList, '>', 100⟩, ⟨"2330".toList, '>', 100⟩] ∧
    (sweepUser (fun _ => some 120)
        [⟨"2330".toList, '>', 100⟩, ⟨"2330".toList, '>', 100⟩, ⟨"2330".toList, '<', 90⟩]).1
      = [⟨"2330".toList, '<', 90⟩] ∧
    (⟨"2330".toList, '>', 100⟩ : AlertCond) ∉
      (sweepUser (fun _ => some 130)
        (sweepUser (fun _ => some 120)
          [⟨"2330".toList, '>', 100⟩, ⟨"2330".toList, '>', 100⟩, ⟨"2330".toList, '<', 90⟩]).1).2 := by
  have h := C7_monitor_fire_once (fun _ => some 120) (fun _ => some 130)
    [⟨"2330".toList, '>', 100⟩, ⟨"2330".toList, '>', 100⟩, ⟨"2330".toList, '<', 90⟩]
  have h100 : ((100 : ℚ) < 120) = True := by norm_num
  have h90 : ((120 : ℚ) < 90) = False := by norm_num
  refine ⟨?_, ?_, ?_⟩
  · rw [h.1]
    simp [List.filter_cons, h100, h90]
  · rw [h.2.1]
    simp [List.filter_cons, trigB, h100, h90]
  · refine h.2.2 _ ?_
    rw [h.1]
    simp [List.filter_cons, h100, h90]

/-- C8: a pending condition whose price retrieval fails (returns absent)
during a sweep is skipped: it is never among the notified conditions, and
the live list after the sweep contains it exactly as often as before. -/
theorem C8_retained_on_failure (price : List Char → Option ℚ)
    (conds : List AlertCond) (c : AlertCond)
    (hfail : price c.stock_id = none) :
    (sweepUser price conds).1.count c = conds.count c ∧
    c ∉ (sweepUser price conds).2 := by
  have htrig : trigB (price c.stock_id) c = false := by
    rw [hfail]
    rfl
  constructor
  · rw [sweepUser_rem]
    exact List.count_filter (by rw [htrig]; rfl)
  · rw [sweepUser, sweepAux_fired]
    intro hm
    have h2 := (List.mem_filter.mp hm).2
    rw [htrig] at h2
    simp at h2

/-- C8 witness: with the price source failing for 2330 but available for
2317, the 2330 condition survives the sweep unchanged and unnotified while
the 2317 condition fires. -/
theorem C8_retained_on_failure_witness :
    ((sweepUser (fun s => if s = "2317".toList then some 50 else none)
        [⟨"2330".toList, '>', 100⟩, ⟨"2317".toList, '>', 40⟩]).1.count
          (⟨"2330".toList, '>', 100⟩ : AlertCond)
      = ([⟨"2330".toList, '>', 100⟩, ⟨"2317".toList, '>', 40⟩] : List AlertCond).count
          ⟨"2330".toList, '>', 100⟩) ∧
    (⟨"2330".toList, '>', 100⟩ : AlertCond) ∉
      (sweepUser (fun s => if s = "2317".toList then some 50 else none)
        [⟨"2330".toList, '>', 100⟩, ⟨"2317".toList, '>', 40⟩]).2 :=
  C8_retained_on_failure (fun s => if s = "2317".toList then some 50 else none)
    [⟨"2330".toList, '>', 100⟩, ⟨"2317".toList, '>', 40⟩]
    ⟨"2330".toList, '>', 100⟩ (by decide)

/-- The invalid-identifier reply text. -/
def invalidText (stock_id : List Char) : List Char :=
  "「".toList ++ stock_id ++ "」不是合法的股票代號。".toList

/-- The data-unavailable reply text. -/
def unavailText (stock_id : List Char) : List Char :=
  "⚠️ 無法取得 ".toList ++ stock_id ++ " 的最新價格（資料可能暫時不可用）。".toList

/-- The rendering of the price inside the success text; the two-decimal
formatting is modelled as the default numeral rendering, its exact digits
being immaterial to the properties below. -/
def fmt2 (q : ℚ) : List Char := (toString q).toList

/-- The success price text. -/
def priceText (name stock_id : List Char) (q : ℚ) : List Char :=
  name ++ "(".toList ++ stock_id ++ ") 目前價格：約 ".toList ++ fmt2 q ++ " 元".toList

/-- The degraded note appended when the trend chart is unavailable. -/
def degradedNote : List Char :=
  "\n⚠️ 趨勢圖資料暫時不可用（可能是資料源或交易日不足）。".toList

/-- The note appended when BASE_URL is unset. -/
def configNote : List Char :=
  "\n⚠️ 尚未設定 BASE_URL，無法提供圖片連結。".toList

/-- `get_stock_price_text` from app.py: validity first (no retrieval on an
invalid identifier), then price retrieval, then name resolution (threading
the name cache). -/
def get_stock_price_text (p : Provider) (upstream : Except Unit Info)
    (cache : Cache) (stock_id : List Char) : (Bool × List Char) × Cache :=
  if !is_valid_stock_id stock_id then ((false, invalidText stock_id), cache)
  else
    match safe_get_last_price p with
    | none => ((false, unavailText stock_id), cache)
    | some price =>
      let r := safe_get_stock_name upstream cache stock_id
      ((true, priceText r.1 stock_id price), r.2.1)

/-- `plot_stock_trend` from app.py: validity check, history fetch, then the
drawing-and-savefig step (the render oracle: ok means the file was written,
error a caught exception yielding None); on success the deterministic
per-identifier filename.  The max/min annotation arithmetic cannot fail on
a non-empty close list and does not affect the returned path. -/
def plot_stock_trend (download : Download) (render : Except Unit Unit)
    (stock_id : List Char) (days : Int) : Option (List Char) :=
  if !is_valid_stock_id stock_id then none
  else
    match fetch_history_df download days with
    | none => none
    | some df =>
      if df.isEmpty then none
      else
        match render with
        | Except.error _ => none
        | Except.ok _ => some ("static/".toList ++ stock_id ++ "_trend.png".toList)

/-- `build_stock_reply` from app.py: compose price text, then attempt the
chart, then the BASE_URL check, returning (success, text, optional image
url) plus the threaded name cache. -/
def build_stock_reply (p : Provider) (upstream : Except Unit Info)
    (cache : Cache) (download : Download) (render : Except Unit Unit)
    (base_url stock_id : List Char) (days : Int) :
    (Bool × List Char × Option (List Char)) × Cache :=
  let r := get_stock_price_text p upstream cache stock_id
  if !r.1.1 then ((false, r.1.2, none), r.2)
  else
    match plot_stock_trend download render stock_id days with
    | none => ((true, r.1.2 ++ degradedNote, none), r.2)
    | some filename =>
      if base_url.isEmpty then ((true, r.1.2 ++ configNote, none), r.2)
      else ((true, r.1.2, some (base_url ++ "/".toList ++ filename)), r.2)

/-- C9: the composer always returns a non-empty text and, being a total
function, never throws; an invalid identifier and a failed price retrieval
give (false, explanatory text, absent) with distinguishable texts; a
successful price with a failed chart render, or with BASE_URL unset,
gives (true, price text plus the respective note, absent); otherwise
(true, price text, constructed url). -/
theorem C9_reply_composer (p : Provider) (upstream : Except Unit Info)
    (cache : Cache) (download : Download) (render : Except Unit Unit)
    (base_url stock_id : List Char) (days : Int) :
    ((build_stock_reply p upstream cache download render base_url stock_id days).1.2.1
      ≠ []) ∧
    (is_valid_stock_id stock_id = false →
      (build_stock_reply p upstream cache download render base_url stock_id days).1
        = (false, invalidText stock_id, none)) ∧
    (is_valid_stock_id stock_id = true → safe_get_last_price p = none →
      (build_stock_reply p upstream cache download render base_url stock_id days).1
        = (false, unavailText stock_id, none)) ∧
    (∀ id2, invalidText stock_id ≠ unavailText id2) ∧
    (∀ pr, is_valid_stock_id stock_id = true → safe_get_last_price p = some pr →
      plot_stock_trend download render stock_id days = none →
      (build_stock_reply p upstream cache download render base_url stock_id days).1
        = (true, priceText (safe_get_stock_name upstream cache stock_id).1 stock_id pr
            ++ degradedNote, none)) ∧
    (∀ pr fn, is_valid_stock_id stock_id = true → safe_get_last_price p = some pr →
      plot_stock_trend download render stock_id days = some fn → base_url = [] →
      (build_stock_reply p upstream cache download render base_url stock_id days).1
        = (true, priceText (safe_get_stock_name upstream cache stock_id).1 stock_id pr
            ++ configNote, none)) ∧
    (∀ pr fn, is_valid_stock_id stock_id = true → safe_get_last_price p = some pr →
      plot_stock_trend download render stock_id days = some fn → base_url ≠ [] →
      (build_stock_reply p upstream cache download render base_url stock_id days).1
        = (true, priceText (safe_get_stock_name upstream cache stock_id).1 stock_id pr,
           some (base_url ++ "/".toList ++ fn))) := by
  refine ⟨?_, ?_, ?_, ?_, ?_, ?_, ?_⟩
  · by_cases hv : is_valid_stock_id stock_id
    · cases hpr : safe_get_last_price p with
      | none =>
        simp [build_stock_reply, get_stock_price_text, hv, hpr, unavailText]
      | some pr =>
        cases hplot : plot_stock_trend download render stock_id days with
        | none =>
          simp [build_stock_reply, get_stock_price_text, hv, hpr, hplot,
            priceText, degradedNote, List.append_assoc]
        | some fn =>
          by_cases hb : base_url.isEmpty <;>
            simp [build_stock_reply, get_stock_price_text, hv, hpr, hplot, hb,
              priceText, configNote, List.append_assoc]
    · rw [Bool.not_eq_true] at hv
      simp [build_stock_reply, get_stock_price_text, hv, invalidText]
  · intro hv
    simp [build_stock_reply, get_stock_price_text, hv]
  · intro hv hpr
    simp [build_stock_reply, get_stock_price_text, hv, hpr]
  · intro id2 h
    have hh := congrArg List.head? h
    rw [show (invalidText stock_id).head? = some '「' from rfl] at hh
    rw [show (unavailText id2).head? = some '⚠' from rfl] at hh
    exact absurd (Option.some.inj hh) (by decide)
  · intro pr hv hpr hplot
    simp [build_stock_reply, get_stock_price_text, hv, hpr, hplot]
  · intro pr fn hv hpr hplot hb
    subst hb
    simp [build_stock_reply, get_stock_price_text, hv, hpr, hplot]
  · intro pr fn hv hpr hplot hb
    have hb2 : base_url.isEmpty = false := by
      cases base_url with
      | nil => exact absurd rfl hb
      | cons a t => rfl
    simp [build_stock_reply, get_stock_price_text, hv, hpr, hplot, hb2]

/-- C9 witness: a fully healthy world — valid identifier, fast quote 123,
history available, render succeeds, BASE_URL set — yields success with the
price text and the constructed url. -/
theorem C9_reply_composer_witness :
    (build_stock_reply ⟨Except.ok (some 123), Except.ok [], Except.ok []⟩
      (Except.error ()) (fun _ => none) (fun _ => Except.ok [(1, some 5)])
      (Except.ok ()) ("h".toList) ("2330".toList) 5).1
    = (true, priceText ("2330".toList) ("2330".toList) 123,
       some ("h".toList ++ "/".toList
         ++ ("static/".toList ++ "2330".toList ++ "_trend.png".toList))) :=
  (C9_reply_composer ⟨Except.ok (some 123), Except.ok [], Except.ok []⟩
      (Except.error ()) (fun _ => none) (fun _ => Except.ok [(1, some 5)])
      (Except.ok ()) ("h".toList) ("2330".toList) 5).2.2.2.2.2.2
    123 ("static/".toList ++ "2330".toList ++ "_trend.png".toList)
    (by decide) rfl rfl (by decide)

/-- C10: the validity invariant across every entry path — an invalid
identifier short-circuits the price-text path to the fixed error reply
without touching any oracle or the cache, and makes the chart path return
absent for every download and render behaviour (no upstream call can be
observed); multi-mode parsing emits only validator-passing identifiers;
the alert-set handler preserves an all-valid store (the only condition it
adds carries a validated identifier); and a monitor sweep only keeps
conditions already in the store, so stored identifiers stay valid. -/
theorem C10_validity_invariant :
    (∀ stock_id, is_valid_stock_id stock_id = false →
      (∀ (p : Provider) (upstream : Except Unit Info) (cache : Cache),
        get_stock_price_text p upstream cache stock_id
          = ((false, invalidText stock_id), cache)) ∧
      (∀ (download : Download) (render : Except Unit Unit) (days : Int),
        plot_stock_trend download render stock_id days = none)) ∧
    (∀ msg, (parse_user_input msg).mode = "multi" →
      ∀ id2 ∈ (parse_user_input msg).stock_ids, is_valid_stock_id id2 = true) ∧
    (∀ msg (store : AlertStore) (uid : String),
      (∀ u c, c ∈ store u → is_valid_stock_id c.stock_id = true) →
      ∀ u c, c ∈ (handle_alert_set msg store uid).1 u →
        is_valid_stock_id c.stock_id = true) ∧
    (∀ (price : List Char → Option ℚ) (conds : List AlertCond) (c : AlertCond),
      c ∈ (sweepUser price conds).1 → c ∈ conds) := by
  refine ⟨?_, ?_, ?_, ?_⟩
  · intro stock_id hv
    constructor
    · intro p upstream cache
      simp [get_stock_price_text, hv]
    · intro download render days
      simp [plot_stock_trend, hv]
  · intro msg hmode id2 hid
    cases hsplit : pySplit (pyStrip msg) with
    | nil =>
      simp [parse_user_input, hsplit] at hmode
    | cons p0 rest =>
      by_cases hp : p0 = kwQuery
      · subst hp
        simp only [parse_user_input, hsplit, if_pos rfl] at hid
        exact (List.mem_filter.mp hid).2
      · simp [parse_user_input, hsplit, hp] at hmode
  · intro msg store uid hstore u c hc
    cases hm : matchAlertRegex msg with
    | none =>
      simp only [handle_alert_set, hm] at hc
      exact hstore u c hc
    | some q =>
      obtain ⟨d1, op, ip, fp⟩ := q
      by_cases hv : is_valid_stock_id (pyStrip d1)
      · simp only [handle_alert_set, hm] at hc
        rw [if_pos hv] at hc
        by_cases hu : u = uid
        · subst hu
          simp only [if_pos rfl] at hc
          rcases List.mem_append.mp hc with h1 | h1
          · exact hstore u c h1
          · rw [List.mem_singleton] at h1
            subst h1
            exact hv
        · simp only [if_neg hu] at hc
          exact hstore u c hc
      · simp only [handle_alert_set, hm] at hc
        rw [if_neg hv] at hc
        exact hstore u c hc
  · intro price conds c hc
    rw [sweepUser_rem] at hc
    exact (List.mem_filter.mp hc).1

/-- C10 witness: the invalid token abc fails fast to the fixed reply with
the cache untouched, under an arbitrary concrete provider and upstream. -/
theorem C10_validity_invariant_witness :
    get_stock_price_text ⟨Except.ok (some 1), Except.ok [], Except.ok []⟩
      (Except.error ()) (fun _ => none) ("abc".toList)
      = ((false, invalidText ("abc".toList)), (fun _ => none : Cache)) :=
  (C10_validity_invariant.1 ("abc".toList) (by decide)).1
    ⟨Except.ok (some 1), Except.ok [], Except.ok []⟩ (Except.error ()) (fun _ => none)

end StockBot
